import Mathlib

/-!
A formal model of cvxpy's MOSEK conic-solver interface
(cvxpy/reductions/solvers/conic_solvers/mosek_conif.py), shallowly embedded in
Lean.  Scalars are rationals; sparse matrices are row lists; the Python
dictionaries built by `apply` are records.  External collaborators (the mosek
Optimizer API, cvxpy's CoeffExtractor and ConicSolver.format_constr, and the
cvxpy settings module) are modelled only to the extent that the code under
verification observes them; every such model is flagged in its doc comment.
-/

set_option autoImplicit false

/-- Python strings are modelled as lists of characters, because the Lean
`String` primitives do not reduce in the kernel. -/
abbrev PyStr := List Char

/-- Model of Python `s.startswith(p)`: the first `len(p)` characters of `s`
equal `p`. -/
def pyStartswith (s p : PyStr) : Bool := s.take p.length == p

/-- Model of Python `s.strip()`: remove leading and trailing whitespace. -/
def pyStrip (s : PyStr) : PyStr :=
  ((s.dropWhile Char.isWhitespace).reverse.dropWhile Char.isWhitespace).reverse

/-- The canonical cvxpy statuses (cvxpy.settings).  `Modelled from the spec:`
the settings module is not under src/; the spec's SolverResult lists exactly
these seven canonical statuses. -/
inductive CvxpyStatus
  | OPTIMAL
  | INFEASIBLE
  | UNBOUNDED
  | OPTIMAL_INACCURATE
  | INFEASIBLE_INACCURATE
  | UNBOUNDED_INACCURATE
  | SOLVER_ERROR
deriving DecidableEq

/-- `Modelled from the spec:` (cvxpy.settings is not under src/) the statuses
for which a solution is present — `Optimal` and `OptimalInaccurate`; for all
other statuses §4.5 of the spec produces no primal/dual values. -/
def SOLUTION_PRESENT : List CvxpyStatus :=
  [CvxpyStatus.OPTIMAL, CvxpyStatus.OPTIMAL_INACCURATE]

/-- The members of `mosek.solsta` (the native solution-status enum of the
mosek Optimizer API, an external collaborator).  The first nine are the keys
of `STATUS_MAP` in `MOSEK.invert`; the remaining three are further members of
the native enum (e.g. a feasible-but-not-optimal interior-point solution)
that the map does not list. -/
inductive Solsta
  | optimal
  | integer_optimal
  | prim_infeas_cer
  | dual_infeas_cer
  | near_optimal
  | near_integer_optimal
  | near_prim_infeas_cer
  | near_dual_infeas_cer
  | unknown
  | prim_feas
  | dual_feas
  | prim_and_dual_feas
deriving DecidableEq

/-- `mosek.soltype`: the interior-point solution or the integer solution. -/
inductive SolType
  | itr
  | itg
deriving DecidableEq

/-- A Python float-or-infinity objective value (`np.inf` / `-np.inf`). -/
inductive ObjValue
  | val (q : ℚ)
  | posInf
  | negInf
deriving DecidableEq

/-- A dual value handed back by `invert`: a scalar for 1-dimensional blocks,
a vector otherwise, and a full symmetric matrix for PSD blocks. -/
inductive DualValue
  | scalar (q : ℚ)
  | vec (l : List ℚ)
  | mat (m : List (List ℚ))
deriving DecidableEq

/-- The Python class of a cvxpy constraint, as tested by
`type(ci) == NonPos` / `Zero` / `SOC` / `ExpCone` / `PSD` in `MOSEK.apply`. -/
inductive ConKind
  | nonpos
  | zero
  | soc
  | expcone
  | psd
deriving DecidableEq

/-- A cvxpy constraint as observed by this interface: its id, its Python
class, and the flattened affine data of its expression.  `coeff`/`offset` are
the output of the affine-flattening collaborator for this constraint
(`Modelled from the spec:` ConicSolver.format_constr and CoeffExtractor.affine
are repository code not under src/; per §6 of the spec the collaborator
returns, for any affine expression, a sparse matrix and an offset vector, so
the model stores that output on the constraint itself).  `cone_sizes` is the
SOC size list (`ci.cone_sizes()`), and `dim` is `c.expr.shape[0]` for PSD
constraints. -/
structure Constraint where
  id : ℕ
  kind : ConKind
  coeff : List (List ℚ)
  offset : List ℚ
  cone_sizes : List ℕ
  dim : ℕ
deriving DecidableEq

/-- The cvxpy standard-form problem as observed by `MOSEK.apply`: one
variable (its id, boolean/integer index sets), the objective coefficient
vector `c` with its constant term, and the constraint list. -/
structure Problem where
  varId : ℕ
  boolIdx : List ℕ
  intIdx : List ℕ
  c : List ℚ
  constant : ℚ
  constraints : List Constraint
deriving DecidableEq

/-! ### The symmetric-matrix codec (vectorized_lower_tri_to_mat) -/

/-- The value of `running_idx` in `vectorized_lower_tri_to_mat` when column
`j` starts being processed: columns `0, …, j-1` contributed `dim - t`
entries each. -/
def colStart (dim j : ℕ) : ℕ := ((List.range j).map (fun t => dim - t)).sum

/-- The parallel `rows`/`cols`/`vals` triplet lists built by the loop of
`vectorized_lower_tri_to_mat`, zipped into one list: for each column
`j < dim`, entries `(j + k, j, v[running_idx + k])` for `k < dim - j`.
Out-of-range reads return 0 (the Python slice `v[a:b]` instead silently
shortens; the two agree whenever `v` has the documented length
`dim * (dim + 1) / 2`). -/
def lowerTriEntries (v : List ℚ) (dim : ℕ) : List (ℕ × ℕ × ℚ) :=
  (List.range dim).flatMap (fun j =>
    (List.range (dim - j)).map (fun k => (j + k, j, v.getD (colStart dim j + k) 0)))

/-- The semantics of `scipy.sparse.coo_matrix((vals, (rows, cols)))`: the
`(i, j)` entry of the dense array is the sum of the values of all triplets at
coordinate `(i, j)`. -/
def cooEntrySum (entries : List (ℕ × ℕ × ℚ)) (i j : ℕ) : ℚ :=
  (entries.map (fun e => if e.1 = i ∧ e.2.1 = j then e.2.2 else 0)).sum

/-- `vectorized_lower_tri_to_mat(v, dim)`: build the lower-triangular array
`A` from the coo triplets, then return `A + A.T - d` where
`d = np.diag(np.diag(A))`, as a `dim × dim` row-major array. -/
def vectorized_lower_tri_to_mat (v : List ℚ) (dim : ℕ) : List (List ℚ) :=
  (List.range dim).map (fun i => (List.range dim).map (fun j =>
    cooEntrySum (lowerTriEntries v dim) i j + cooEntrySum (lowerTriEntries v dim) j i
      - (if i = j then cooEntrySum (lowerTriEntries v dim) i i else 0)))

/-! ### psd_coeff_offset and MOSEK.block_format -/

/-- `Modelled from the spec:` `CoeffExtractor(InverseData(problem)).affine(c.expr)`
(repository code not under src/) returns the flattened coefficient matrix and
offset vector of the constraint's affine expression; the model reads that
output off the constraint record. -/
def extractorAffine (problem : Problem) (c : Constraint) : List (List ℚ) × List ℚ :=
  (c.coeff, c.offset)

/-- `psd_coeff_offset(problem, c)`: flatten the LMI's expression, negate the
coefficients (`A = -A_vec`), keep the offset, and report `dim = c.expr.shape[0]`. -/
def psd_coeff_offset (problem : Problem) (c : Constraint) :
    List (List ℚ) × List ℚ × ℕ :=
  let Ab := extractorAffine problem c
  (Ab.1.map (fun row => row.map (fun x => -x)), Ab.2, c.dim)

/-- `Modelled from the spec:` `ConicSolver.format_constr` (repository code not
under src/) — the affine-flattening collaborator used by `block_format`; it
returns the coefficient matrix and offset of one constraint.  The exponential
cone-order permutation is applied inside the collaborator, so the stored
`coeff`/`offset` already reflect it. -/
def format_constr (problem : Problem) (con : Constraint)
    (exp_cone_order : Option (List ℕ)) : List (List ℚ) × List ℚ :=
  (con.coeff, con.offset)

/-- The value returned by `MOSEK.block_format`.  On an empty constraint list
the source executes `return None, None` — a pair; otherwise it executes
`return coeff, offset, lengths, ids` — a four-tuple. -/
inductive BlockFormatResult
  | noBlock
  | blocks (coeff : List (List ℚ)) (offset : List ℚ)
      (lengths : List ℕ) (ids : List ℕ)
deriving DecidableEq

/-- The arity of the Python tuple literal that `block_format` returns on each
path: `return None, None` builds a 2-tuple, `return coeff, offset, lengths,
ids` builds a 4-tuple. -/
def pyTupleLen : BlockFormatResult → ℕ
  | BlockFormatResult.noBlock => 2
  | BlockFormatResult.blocks _ _ _ _ => 4

/-- `MOSEK.block_format(problem, constraints, exp_cone_order)`: stack the
per-constraint coefficient matrices and offsets (in input order), recording
each constraint's row count (`offset.size`) and id. -/
def MOSEK.block_format (problem : Problem) (constraints : List Constraint)
    (exp_cone_order : Option (List ℕ)) : BlockFormatResult :=
  if constraints.isEmpty then BlockFormatResult.noBlock
  else
    let pairs := constraints.map (fun con => format_constr problem con exp_cone_order)
    let matrices := pairs.map (fun pr => pr.1)
    let offsets := pairs.map (fun pr => pr.2)
    let lengths := offsets.map List.length
    let ids := constraints.map (fun con => con.id)
    BlockFormatResult.blocks matrices.flatten offsets.flatten lengths ids

/-! ### MOSEK.apply -/

/-- `MOSEK.EXP_CONE_ORDER = [2, 1, 0]`. -/
def EXP_CONE_ORDER : List ℕ := [2, 1, 0]

/-- `[ci for ci in problem.constraints if type(ci) == NonPos]`. -/
def leqConstr (p : Problem) : List Constraint :=
  p.constraints.filter (fun ci => ci.kind == ConKind.nonpos)

/-- `[ci for ci in problem.constraints if type(ci) == Zero]`. -/
def eqConstr (p : Problem) : List Constraint :=
  p.constraints.filter (fun ci => ci.kind == ConKind.zero)

/-- `[ci for ci in problem.constraints if type(ci) == SOC]`. -/
def socConstr (p : Problem) : List Constraint :=
  p.constraints.filter (fun ci => ci.kind == ConKind.soc)

/-- `[ci for ci in problem.constraints if type(ci) == ExpCone]`. -/
def expConstr (p : Problem) : List Constraint :=
  p.constraints.filter (fun ci => ci.kind == ConKind.expcone)

/-- `[ci for ci in problem.constraints if type(ci) == PSD]`. -/
def psdConstr (p : Problem) : List Constraint :=
  p.constraints.filter (fun ci => ci.kind == ConKind.psd)

/-- What one `if len(..._constr) > 0:` block of `MOSEK.apply` contributes:
the appended coefficient stacks (`As`), offset stacks (`bs`), the
`(id, length)` pairs recorded into the inverse data, the summed dimension,
and the raw `lengths` list (used for `EXP_DIM`).  The `noBlock` branch is the
case where the guard `len(...) > 0` is false and nothing is appended. -/
structure GroupData where
  As : List (List (List ℚ))
  bs : List (List ℚ)
  slacks : List (ℕ × ℕ)
  total : ℕ
  lengths : List ℕ
deriving DecidableEq

/-- Run `block_format` on one kind's constraint list and package what the
corresponding `MOSEK.apply` block appends (see `GroupData`). -/
def groupData (p : Problem) (cs : List Constraint) (o : Option (List ℕ)) :
    GroupData :=
  match MOSEK.block_format p cs o with
  | BlockFormatResult.noBlock => ⟨[], [], [], 0, []⟩
  | BlockFormatResult.blocks A b lengths ids =>
      ⟨[A], [b], ids.zip lengths, lengths.sum, lengths⟩

/-- `data[s.DIMS]`: the cone dimension record. -/
structure Dims where
  soc : List ℕ
  exp : List ℕ
  psd : List ℕ
  leq : ℕ
  eq : ℕ
deriving DecidableEq

/-- The `data` dictionary produced by `MOSEK.apply` and consumed by
`solve_via_data`, as a record.  `Modelled from the spec:` the string key
constants live in cvxpy.settings (not under src/); per the spec, `apply`
records a single objective constant offset which `solve_via_data` reads back,
so the keys `s.OBJ_OFFSET` (written in `apply`) and `s.OFFSET` (read in
`solve_via_data`) denote the single field `obj_offset`. -/
structure MosekData where
  bool_idx : List ℕ
  int_idx : List ℕ
  c : List ℚ
  obj_offset : ℚ
  dims : Dims
  G : List (List ℚ)
  h : List ℚ
deriving DecidableEq

/-- The `inv_data` dictionary produced by `MOSEK.apply` and consumed by
`invert`, as a record. -/
structure InvData where
  var_id : ℕ
  suc_slacks : List (ℕ × ℕ)
  y_slacks : List (ℕ × ℕ)
  snx_slacks : List (ℕ × ℕ)
  psd_dims : List (ℕ × ℕ)
  integer_variables : Bool
  n0 : ℕ
  obj_offset : ℚ
deriving DecidableEq

/-- `MOSEK.apply(problem)`: partition the constraints by Python class, stack
each kind via `block_format` (linear inequalities, then linear equations,
then SOC, then EXP, then PSD via `psd_coeff_offset`), and record the
per-destination `(id, length)` tables.  `scipy.sparse.vstack` /` np.hstack`
raise on an empty sequence, hence the guard on `As`. -/
def MOSEK.apply (p : Problem) : Option (MosekData × InvData) :=
  let leqG := groupData p (leqConstr p) none
  let eqG := groupData p (eqConstr p) none
  let socG := groupData p (socConstr p) none
  let expG := groupData p (expConstr p) (some EXP_CONE_ORDER)
  let psdT := (psdConstr p).map (fun c => psd_coeff_offset p c)
  let As := leqG.As ++ eqG.As ++ socG.As ++ expG.As ++ psdT.map (fun t => t.1)
  let bs := leqG.bs ++ eqG.bs ++ socG.bs ++ expG.bs ++ psdT.map (fun t => t.2.1)
  if As.isEmpty then none
  else some
    ({ bool_idx := p.boolIdx,
       int_idx := p.intIdx,
       c := p.c,
       obj_offset := p.constant,
       dims := { soc := (socConstr p).flatMap (fun ci => ci.cone_sizes),
                 exp := expG.lengths,
                 psd := (psdConstr p).map (fun c => c.dim),
                 leq := leqG.total,
                 eq := eqG.total },
       G := As.flatten,
       h := bs.flatten },
     { var_id := p.varId,
       suc_slacks := leqG.slacks,
       y_slacks := eqG.slacks,
       snx_slacks := socG.slacks ++ expG.slacks,
       psd_dims := (psdConstr p).map (fun c => (c.id, c.dim)),
       integer_variables := decide (p.boolIdx.length + p.intIdx.length > 0),
       n0 := p.c.length,
       obj_offset := p.constant })

/-! ### Solver parameter handling (_handle_mosek_params) -/

/-- The fixed prefix of double-valued string parameter keys. -/
def dparHead : PyStr := "MSK_DPAR_".data

/-- The fixed prefix of integer-valued string parameter keys. -/
def iparHead : PyStr := "MSK_IPAR_".data

/-- The fixed prefix of string-valued string parameter keys. -/
def sparHead : PyStr := "MSK_SPAR_".data

/-- The text of the ValueError raised for an unrecognized mosek parameter. -/
def invalidParamMsg : PyStr := "Invalid MOSEK parameter ".data

/-- The text of the ValueError raised for an unrecognized keyword argument. -/
def invalidKwargMsg : PyStr := "Invalid keyword-argument ".data

/-- A key of the user-supplied `mosek_params` dictionary: either a Python
string, or a native typed enum value of one of the three mosek parameter
classes (`mosek.dparam` / `mosek.iparam` / `mosek.sparam`), or any other
Python object. -/
inductive MosekParamKey
  | str (s : PyStr)
  | dparKey
  | iparKey
  | sparKey
  | otherKey
deriving DecidableEq

/-- The solver-native call through which `_handle_mosek_params` applies one
accepted parameter (`putnadouparam` / `putnaintparam` / `putnastrparam` for
string keys, `putdouparam` / `putintparam` / `putstrparam` for enum keys). -/
inductive ParamAction
  | nadouparam (key : PyStr)
  | naintparam (key : PyStr)
  | nastrparam (key : PyStr)
  | douparam
  | intparam
  | strparam
deriving DecidableEq

/-- `_handle_str_param(param, value)`: dispatch on the three fixed prefixes,
raising ValueError otherwise. -/
def handleStrParam (param : PyStr) : Except PyStr ParamAction :=
  if pyStartswith param dparHead then Except.ok (ParamAction.nadouparam param)
  else if pyStartswith param iparHead then Except.ok (ParamAction.naintparam param)
  else if pyStartswith param sparHead then Except.ok (ParamAction.nastrparam param)
  else Except.error (invalidParamMsg ++ param)

/-- `_handle_enum_param(param, value)`: dispatch on
`isinstance(param, mosek.dparam / iparam / sparam)`, raising ValueError
otherwise. -/
def handleEnumParam : MosekParamKey → Except PyStr ParamAction
  | MosekParamKey.dparKey => Except.ok ParamAction.douparam
  | MosekParamKey.iparKey => Except.ok ParamAction.intparam
  | MosekParamKey.sparKey => Except.ok ParamAction.strparam
  | _ => Except.error invalidParamMsg

/-- One iteration of the loop in `_handle_mosek_params`: string keys are
stripped and dispatched on their prefix, non-string keys on their native
class. -/
def handleParam : MosekParamKey → Except PyStr ParamAction
  | MosekParamKey.str s => handleStrParam (pyStrip s)
  | k => handleEnumParam k

/-- The loop of `_handle_mosek_params`: parameters are processed in order and
the first invalid one raises. -/
def handleParams : List MosekParamKey → Except PyStr (List ParamAction)
  | [] => Except.ok []
  | k :: rest =>
      match handleParam k with
      | Except.error e => Except.error e
      | Except.ok a =>
          match handleParams rest with
          | Except.error e => Except.error e
          | Except.ok as => Except.ok (a :: as)

/-- `MOSEK._handle_mosek_params(task, params)`: `None` means no parameters. -/
def MOSEK.handle_mosek_params :
    Option (List MosekParamKey) → Except PyStr (List ParamAction)
  | none => Except.ok []
  | some params => handleParams params

/-- The `solver_opts` dictionary as observed by `solve_via_data`:
`mosek_params` is `none` when the key is absent, `some none` when it is
present with value `None`; `extraKwargs` is the sorted list of the remaining
keyword arguments. -/
structure SolverOpts where
  mosek_params : Option (Option (List MosekParamKey))
  extraKwargs : List PyStr
deriving DecidableEq

/-- The keyword-argument prologue of `solve_via_data`: handle `mosek_params`
first (if present), then raise on the first remaining keyword argument. -/
def checkOpts (solver_opts : SolverOpts) : Except PyStr Unit :=
  match solver_opts.mosek_params with
  | none =>
      match solver_opts.extraKwargs with
      | [] => Except.ok ()
      | k :: _ => Except.error (invalidKwargMsg ++ k)
  | some params =>
      match MOSEK.handle_mosek_params params with
      | Except.error e => Except.error e
      | Except.ok _ =>
          match solver_opts.extraKwargs with
          | [] => Except.ok ()
          | k :: _ => Except.error (invalidKwargMsg ++ k)

/-! ### MOSEK.solve_via_data -/

/-- `mosek.conetype`: quadratic or primal exponential. -/
inductive ConeType
  | quad
  | pexp
deriving DecidableEq

/-- `mosek.boundkey`: free, upper-bounded, fixed, or ranged. -/
inductive BoundKey
  | fr
  | up
  | fx
  | ra
deriving DecidableEq

/-- One `putbaraij` contribution: linear-expression row `coni`, PSD matrix
variable `barj`, and a single-entry symmetric basis matrix with value `val`
at coordinate `(matRow, matCol)`. -/
structure BarEntry where
  coni : ℕ
  barj : ℕ
  matRow : ℕ
  matCol : ℕ
  val : ℚ
deriving DecidableEq

/-- The mosek Task as populated by `solve_via_data`, with one field per kind
of declaration made through the Optimizer API. -/
structure TaskModel where
  numVars : ℕ
  barvarDims : List ℕ
  cones : List (ConeType × List ℕ)
  intVars : List ℕ
  numCons : ℕ
  aij : List (ℕ × ℕ × ℚ)
  baraij : List BarEntry
  boundKeys : List BoundKey
  boundVals : List ℚ
  objC : List ℚ
  optimizeCalled : Bool
deriving DecidableEq

/-- A freshly created task (`env.Task(0, 0)`): nothing declared yet. -/
def TaskModel.init : TaskModel :=
  ⟨0, [], [], [], 0, [], [], [], [], [], false⟩

/-- The synthetic result dictionary returned on the zero-variable path:
`{s.STATUS: s.OPTIMAL, s.PRIMAL: [], s.VALUE: <offset>, s.EQ_DUAL: [],
s.INEQ_DUAL: []}`. -/
structure TrivialResult where
  status : CvxpyStatus
  primal : List ℚ
  value : ℚ
  eq_dual : List ℚ
  ineq_dual : List ℚ
deriving DecidableEq

/-- What `solve_via_data` returns: the synthetic zero-variable dictionary, or
the populated (and optimized) mosek task. -/
inductive SolveResult
  | trivial (r : TrivialResult)
  | task (t : TaskModel)
deriving DecidableEq

/-- `scipy.sparse.find(G)`: the nonzero triplets `(row, col, value)` of the
stacked matrix (their order does not matter to `putaijlist`). -/
def sparseFind (G : List (List ℚ)) : List (ℕ × ℕ × ℚ) :=
  G.enum.flatMap (fun ir =>
    ir.2.enum.filterMap (fun jv =>
      if jv.2 ≠ 0 then some (ir.1, jv.1, jv.2) else none))

/-- The identity block mapping each SOC/EXP slack variable to its stacked
row: `putaijlist(range(i, i+total), range(j, j+total), [1]*total)`. -/
def slackIdentity (i0 j0 total : ℕ) : List (ℕ × ℕ × ℚ) :=
  ((List.range' i0 total).zip (List.range' j0 total)).map
    (fun rc => (rc.1, rc.2, (1 : ℚ)))

/-- The `for size_cone in dims[s.SOC_DIM]:` loop: one quadratic cone over the
next `size_cone` slack indices, advancing the running index. -/
def socCones (running_idx : ℕ) : List ℕ → List (ConeType × List ℕ)
  | [] => []
  | size_cone :: rest =>
      (ConeType.quad, List.range' running_idx size_cone) ::
        socCones (running_idx + size_cone) rest

/-- The `for k in range(sum(dims[s.EXP_DIM]) // 3):` loop: one primal
exponential cone per consecutive triple of slack indices. -/
def expCones (running_idx : ℕ) : ℕ → List (ConeType × List ℕ)
  | 0 => []
  | k + 1 =>
      (ConeType.pexp, List.range' running_idx 3) :: expCones (running_idx + 3) k

/-- The nested PSD loop of `solve_via_data`: for block `j` of dimension
`dim`, and each `(row_idx, col_idx)` pair in row-major order, one
`putbaraij` call with value `1.0` on the diagonal and `0.5` off it, at the
lower-triangular coordinate `(max, min)`.  The running constraint index `i`
of the source equals `i0 + row_idx * dim + col_idx` within the block, and
advances by `dim * dim` per block. -/
def psdEntries (i0 j0 : ℕ) : List ℕ → List BarEntry
  | [] => []
  | dim :: rest =>
      ((List.range dim).flatMap (fun row_idx =>
        (List.range dim).map (fun col_idx =>
          { coni := i0 + (row_idx * dim + col_idx),
            barj := j0,
            matRow := max row_idx col_idx,
            matCol := min row_idx col_idx,
            val := if row_idx = col_idx then (1 : ℚ) else 1/2 })))
      ++ psdEntries (i0 + dim * dim) (j0 + 1) rest

/-- `MOSEK.solve_via_data(data, warm_start, verbose, solver_opts)`: validate
the solver options, short-circuit zero-variable problems, otherwise populate
the task.  The source populates the task imperatively (appendvars,
appendbarvars, appendcone, putvartypelist, appendcons, putaijlist,
putbaraij, putconboundlist, putclist, optimize); each field below holds the
final value of the corresponding sequence of declarations, conditionals
mirroring the source's guards. -/
def MOSEK.solve_via_data (data : MosekData) (warm_start verbose : Bool)
    (solver_opts : SolverOpts) : TaskModel × Except PyStr SolveResult :=
  match checkOpts solver_opts with
  | Except.error e => (TaskModel.init, Except.error e)
  | Except.ok _ =>
    if data.c.length = 0 then
      (TaskModel.init, Except.ok (SolveResult.trivial
        { status := CvxpyStatus.OPTIMAL, primal := [],
          value := data.obj_offset, eq_dual := [], ineq_dual := [] }))
    else
      let dims := data.dims
      let c := data.c
      let n0 := c.length
      let n := n0 + dims.soc.sum + dims.exp.sum
      let psd_total_dims := (dims.psd.map (fun el => el * el)).sum
      let m := data.h.length
      let num_bool := data.bool_idx.length
      let num_int := data.int_idx.length
      let total_soc_exp_slacks := dims.soc.sum + dims.exp.sum
      let task : TaskModel :=
        { numVars := n,
          barvarDims := if psd_total_dims > 0 then dims.psd else [],
          cones := socCones n0 dims.soc ++
            expCones (n0 + dims.soc.sum) (dims.exp.sum / 3),
          intVars := if num_bool + num_int > 0 then data.bool_idx ++ data.int_idx
            else [],
          numCons := m,
          aij := sparseFind data.G ++
            (if total_soc_exp_slacks > 0 then
              slackIdentity (dims.leq + dims.eq) n0 total_soc_exp_slacks
             else []),
          baraij := psdEntries (dims.leq + dims.eq + total_soc_exp_slacks) 0
            dims.psd,
          boundKeys := List.replicate dims.leq BoundKey.up ++
            List.replicate (m - dims.leq) BoundKey.fx,
          boundVals := data.h,
          objC := c,
          optimizeCalled := true }
      (task, Except.ok (SolveResult.task task))

/-! ### MOSEK.invert -/

/-- The `STATUS_MAP` dictionary of `MOSEK.invert`, as the ordered key-value
pairs of the Python dict literal. -/
def STATUS_MAP : List (Solsta × CvxpyStatus) :=
  [(Solsta.optimal, CvxpyStatus.OPTIMAL),
   (Solsta.integer_optimal, CvxpyStatus.OPTIMAL),
   (Solsta.prim_infeas_cer, CvxpyStatus.INFEASIBLE),
   (Solsta.dual_infeas_cer, CvxpyStatus.UNBOUNDED),
   (Solsta.near_optimal, CvxpyStatus.OPTIMAL_INACCURATE),
   (Solsta.near_integer_optimal, CvxpyStatus.OPTIMAL_INACCURATE),
   (Solsta.near_prim_infeas_cer, CvxpyStatus.INFEASIBLE_INACCURATE),
   (Solsta.near_dual_infeas_cer, CvxpyStatus.UNBOUNDED_INACCURATE),
   (Solsta.unknown, CvxpyStatus.SOLVER_ERROR)]

/-- The Python indexing `STATUS_MAP[solution_status]`: `some` the mapped
status when the key is present, `none` (a KeyError) otherwise. -/
def statusOf (solution_status : Solsta) : Option CvxpyStatus :=
  STATUS_MAP.lookup solution_status

/-- The solver-native result buffers read by `invert`: the solution status
per solution type, the primal objective, and the `xx` / `suc` / `y` / `snx`
buffers plus one half-vectorized `barsj` buffer per PSD matrix variable. -/
structure MosekTask where
  solsta_itr : Solsta
  solsta_itg : Solsta
  primalobj : ℚ
  xx : List ℚ
  suc : List ℚ
  y : List ℚ
  snx : List ℚ
  bars : List (List ℚ)
deriving DecidableEq

/-- `task.getsolsta(sol)`. -/
def MosekTask.getsolsta (t : MosekTask) : SolType → Solsta
  | SolType.itr => t.solsta_itr
  | SolType.itg => t.solsta_itg

/-- The loop of `MOSEK.parse_dual_vars`, threading `running_idx`. -/
def parseDualAux (dual_var : List ℚ) (running_idx : ℕ) :
    List (ℕ × ℕ) → List (ℕ × DualValue)
  | [] => []
  | (cid, dim) :: rest =>
      (cid,
        if dim = 1 then DualValue.scalar (dual_var.getD running_idx 0)
        else DualValue.vec ((dual_var.drop running_idx).take dim)) ::
      parseDualAux dual_var (running_idx + dim) rest

/-- `MOSEK.parse_dual_vars(dual_var, constr_id_to_constr_dim)`: split the
flat dual buffer per `(id, dim)` pair; dimension-1 entries become scalars.
Constraint ids are unique, so the result dictionary is an association
list. -/
def MOSEK.parse_dual_vars (dual_var : List ℚ)
    (constr_id_to_constr_dim : List (ℕ × ℕ)) : List (ℕ × DualValue) :=
  parseDualAux dual_var 0 constr_id_to_constr_dim

/-- The cvxpy Solution object built by `invert`: canonical status, optional
objective value, optional primal values and optional dual values (`None`
when no solution is present). -/
structure PySolution where
  status : CvxpyStatus
  opt_val : Option ObjValue
  primal_vars : Option (List (ℕ × List ℚ))
  dual_vars : Option (List (ℕ × DualValue))
deriving DecidableEq

/-- `MOSEK.invert(task, inverse_data)`: pick the solution pool, map the
native status through `STATUS_MAP` (`none` models the KeyError raised on an
unlisted status), and build the Solution.  When a solution is present, read
the objective (adding the recorded constant), the first `n0` primal entries,
and the dual buffers sliced per destination table; otherwise the objective
is `+inf` for infeasible, `-inf` for unbounded, `None` else, with no
primal or dual values. -/
def MOSEK.invert (task : MosekTask) (inverse_data : InvData) :
    Option PySolution :=
  let sol := if inverse_data.integer_variables then SolType.itg else SolType.itr
  match statusOf (task.getsolsta sol) with
  | none => none
  | some status =>
    if SOLUTION_PRESENT.contains status then
      let opt_val := task.primalobj + inverse_data.obj_offset
      let x := task.xx.take inverse_data.n0
      let primal_vars := [(inverse_data.var_id, x)]
      let suc_len := (inverse_data.suc_slacks.map (fun pr => pr.2)).sum
      let suc := task.suc.take suc_len
      let y_len := (inverse_data.y_slacks.map (fun pr => pr.2)).sum
      let y := (task.y.drop suc_len).take y_len
      let snx_len := (inverse_data.snx_slacks.map (fun pr => pr.2)).sum
      let snx := (task.snx.drop inverse_data.n0).take snx_len
      let dual_vars :=
        MOSEK.parse_dual_vars suc inverse_data.suc_slacks ++
        MOSEK.parse_dual_vars y inverse_data.y_slacks ++
        MOSEK.parse_dual_vars snx inverse_data.snx_slacks ++
        inverse_data.psd_dims.enum.map (fun jpr =>
          (jpr.2.1, DualValue.mat (vectorized_lower_tri_to_mat
            ((task.bars.getD jpr.1 []).take (jpr.2.2 * (jpr.2.2 + 1) / 2))
            jpr.2.2)))
      some { status := status, opt_val := some (ObjValue.val opt_val),
             primal_vars := some primal_vars, dual_vars := some dual_vars }
    else
      some { status := status,
             opt_val :=
               if status = CvxpyStatus.INFEASIBLE then some ObjValue.posInf
               else if status = CvxpyStatus.UNBOUNDED then some ObjValue.negInf
               else none,
             primal_vars := none, dual_vars := none }

/-! ### Spec-side helpers used in theorem statements -/

/-- Whether an `Except` result models a raised Python exception. -/
def isErr {α : Type} : Except PyStr α → Bool
  | Except.error _ => true
  | Except.ok _ => false

/-- The row-wise stack (vstack) of a constraint list's coefficient matrices,
in input order. -/
def stackedCoeffRows (cs : List Constraint) : List (List ℚ) :=
  (cs.map (fun c => c.coeff)).flatten

/-- The stack (hstack) of a constraint list's offset vectors, in input
order. -/
def stackedOffsets (cs : List Constraint) : List ℚ :=
  (cs.map (fun c => c.offset)).flatten

/-- Entrywise negation of a row-major matrix (`-A_vec`). -/
def negatedRows (A : List (List ℚ)) : List (List ℚ) :=
  A.map (fun row => row.map (fun x => -x))

/-- The validity predicate on `mosek_params` keys implemented by
`_handle_mosek_params`: a string key is accepted iff, after stripping
surrounding whitespace, it begins with one of the three fixed prefixes; a
non-string key is accepted iff it is a native enum value of one of the three
mosek parameter classes. -/
def isValidParamKey : MosekParamKey → Bool
  | MosekParamKey.str s =>
      pyStartswith (pyStrip s) dparHead || pyStartswith (pyStrip s) iparHead ||
        pyStartswith (pyStrip s) sparHead
  | MosekParamKey.dparKey => true
  | MosekParamKey.iparKey => true
  | MosekParamKey.sparKey => true
  | MosekParamKey.otherKey => false

/-! ### Concrete fixtures for witnesses and counterexamples -/

/-- A linear inequality constraint (NonPos), id 2, 1 row. -/
def exConNonpos : Constraint := ⟨2, ConKind.nonpos, [[1, 1]], [7], [], 0⟩

/-- A linear equation constraint (Zero), id 1, 2 rows. -/
def exConZero : Constraint := ⟨1, ConKind.zero, [[1, 0], [0, 1]], [3, 4], [], 0⟩

/-- A second-order-cone constraint, id 3, one cone of size 2. -/
def exConSoc : Constraint := ⟨3, ConKind.soc, [[1, 0], [0, 1]], [1, 2], [2], 0⟩

/-- An exponential-cone constraint, id 4, 3 rows. -/
def exConExp : Constraint :=
  ⟨4, ConKind.expcone, [[1, 0], [0, 1], [1, 1]], [0, 1, 2], [], 0⟩

/-- A PSD constraint, id 5, dimension 2 (4 dense rows). -/
def exConPsd : Constraint :=
  ⟨5, ConKind.psd, [[1, 0], [0, 0], [0, 0], [0, 1]], [1, 0, 0, 1], [], 2⟩

/-- A problem exercising all five cone kinds, with 2 variables. -/
def exProblem : Problem :=
  ⟨0, [], [], [1, 2], 5, [exConNonpos, exConZero, exConSoc, exConExp, exConPsd]⟩

/-- The `data` record produced by `MOSEK.apply exProblem`. -/
def exData5 : MosekData :=
  ⟨[], [], [1, 2], 5, ⟨[2], [3], [2], 1, 2⟩,
   [[1, 1], [1, 0], [0, 1], [1, 0], [0, 1], [1, 0], [0, 1], [1, 1],
    [-1, 0], [0, 0], [0, 0], [0, -1]],
   [7, 3, 4, 1, 2, 0, 1, 2, 1, 0, 0, 1]⟩

/-- The `inv_data` record produced by `MOSEK.apply exProblem`. -/
def exInv5 : InvData :=
  ⟨0, [(2, 1)], [(1, 2)], [(3, 2), (4, 3)], [(5, 2)], false, 2, 5⟩

/-- A zero-variable problem (empty objective vector), constant 7. -/
def exP1 : Problem := ⟨0, [], [], [], 7, [⟨1, ConKind.zero, [[]], [4], [], 0⟩]⟩

/-- The `data` record produced by `MOSEK.apply exP1`. -/
def exD1 : MosekData := ⟨[], [], [], 7, ⟨[], [], [], 0, 1⟩, [[]], [4]⟩

/-- The `inv_data` record produced by `MOSEK.apply exP1`. -/
def exI1 : InvData := ⟨0, [], [(1, 1)], [], [], false, 0, 7⟩

/-- A problem with one Zero constraint (listed first, offset row 5) and one
NonPos constraint (listed second, offset row 7). -/
def cexP3 : Problem :=
  ⟨0, [], [], [1], 0,
   [⟨1, ConKind.zero, [[1]], [5], [], 0⟩, ⟨2, ConKind.nonpos, [[1]], [7], [], 0⟩]⟩

/-- Encoded data with one variable, one SOC cone of size 2, one EXP block of
length 3, one PSD block of dimension 2, one inequality row and no equality
rows (so 10 stacked rows in all). -/
def exData6 : MosekData :=
  ⟨[], [], [1], 0, ⟨[2], [3], [2], 1, 0⟩, List.replicate 10 [1],
   List.replicate 10 0⟩

/-- An empty `solver_opts` dictionary. -/
def defaultOpts : SolverOpts := ⟨none, []⟩

/-- A parameter key that is not a string and not a native mosek enum. -/
def bogusKey : PyStr := "bogus".data

/-- Solver options carrying one invalid `mosek_params` key. -/
def badOpts8 : SolverOpts := ⟨some (some [MosekParamKey.str bogusKey]), []⟩

/-- A `MSK_DPAR_`-class key with a leading space: it does not *begin with*
the prefix, but `strip()` makes the code accept it. -/
def cexSpacedKey : PyStr := " MSK_DPAR_BASIS_TOL_X".data

/-- Solver options carrying the whitespace-padded key. -/
def cexOpts8 : SolverOpts := ⟨some (some [MosekParamKey.str cexSpacedKey]), []⟩

/-- A result buffer whose solution status is a primal infeasibility
certificate. -/
def exTask7 : MosekTask :=
  ⟨Solsta.prim_infeas_cer, Solsta.prim_infeas_cer, 0, [], [], [], [], []⟩

/-- An inverse-data record for a problem with no constraints recorded. -/
def exInv7 : InvData := ⟨0, [], [], [], [], false, 0, 0⟩

/-- A result buffer whose solution status (`prim_and_dual_feas`) is a native
status outside the nine keys of `STATUS_MAP`. -/
def cexTask2 : MosekTask :=
  ⟨Solsta.prim_and_dual_feas, Solsta.prim_and_dual_feas, 0, [], [], [], [], []⟩

/-- A concrete symmetric 2 × 2 matrix: 2 on the diagonal, 3 off it. -/
def exM4 : ℕ → ℕ → ℚ := fun i j => if i = j then 2 else 3

/-- The column-major lower-triangular listing of `exM4` for `dim = 2`. -/
def exV4 : List ℚ := [2, 3, 2]

deriving instance DecidableEq for Except

/-! ### List summation lemmas -/

/-- Summing a mapped flatMap equals summing the per-chunk sums. -/
theorem sum_map_flatMap {α β : Type} (xs : List α) (g : α → List β) (f : β → ℚ) :
    ((xs.flatMap g).map f).sum = (xs.map (fun b => ((g b).map f).sum)).sum := by
  induction xs with
  | nil => simp
  | cons x xs ih => simp [ih]

/-- Summing a flatMap of numeric lists equals summing the per-chunk sums. -/
theorem sum_flatMap_nat {α : Type} (xs : List α) (g : α → List ℕ) :
    (xs.flatMap g).sum = (xs.map (fun x => (g x).sum)).sum := by
  induction xs with
  | nil => simp
  | cons x xs ih => simp [ih]

/-- A range-indexed sum with a single live index `i - t` (shifted guard). -/
theorem sum_map_range_ite (m t i : ℕ) (w : ℕ → ℚ) :
    ((List.range m).map (fun k => if t + k = i then w k else 0)).sum
      = if t ≤ i ∧ i < t + m then w (i - t) else 0 := by
  induction m with
  | zero =>
      have h0 : ¬ (t ≤ i ∧ i < t) := by omega
      simp [h0]
  | succ m ih =>
      rw [List.range_succ, List.map_append, List.sum_append, ih]
      by_cases h : t + m = i
      · have h1 : ¬ (t ≤ i ∧ i < t + m) := by omega
        have h2 : t ≤ i ∧ i < t + (m + 1) := by omega
        have h3 : i - t = m := by omega
        simp [h, h1, h2, h3]
      · have h4 : (t ≤ i ∧ i < t + (m + 1)) ↔ (t ≤ i ∧ i < t + m) := by omega
        simp [h, h4]

/-- A range-indexed sum with a single live index `j` (equality guard). -/
theorem sum_map_range_ite_eq (m j : ℕ) (w : ℕ → ℚ) :
    ((List.range m).map (fun k => if k = j then w k else 0)).sum
      = if j < m then w j else 0 := by
  induction m with
  | zero => simp
  | succ m ih =>
      rw [List.range_succ, List.map_append, List.sum_append, ih]
      by_cases h : m = j
      · subst h
        have h1 : ¬ (m < m) := by omega
        have h2 : m < m + 1 := by omega
        simp [h1, h2]
      · have h2 : (j < m + 1) ↔ (j < m) := by omega
        have h3 : ¬ (m = j) := h
        simp [h2, h3]

/-- `sum_map_range_ite` with the summand given pointwise. -/
theorem sum_map_ite_shift (m t i : ℕ) (w : ℕ → ℚ) (F : ℕ → ℚ)
    (h : ∀ k ∈ List.range m, F k = if t + k = i then w k else 0) :
    ((List.range m).map F).sum = if t ≤ i ∧ i < t + m then w (i - t) else 0 := by
  rw [List.map_congr_left h]
  exact sum_map_range_ite m t i w

/-- `sum_map_range_ite_eq` with a constant live value, summand pointwise. -/
theorem sum_map_ite_const (m j : ℕ) (C : ℚ) (F : ℕ → ℚ)
    (h : ∀ jp ∈ List.range m, F jp = if jp = j then C else 0) :
    ((List.range m).map F).sum = if j < m then C else 0 := by
  rw [List.map_congr_left h]
  exact sum_map_range_ite_eq m j (fun _ => C)

/-! ### Codec lemmas -/

/-- The `(i, j)` entry of the coo array built by `vectorized_lower_tri_to_mat`
is the `v`-entry at offset `colStart dim j + (i - j)` exactly on the in-range
lower triangle, and 0 elsewhere. -/
theorem cooEntrySum_lowerTri (v : List ℚ) (dim i j : ℕ) :
    cooEntrySum (lowerTriEntries v dim) i j
      = if j ≤ i ∧ i < dim then v.getD (colStart dim j + (i - j)) 0 else 0 := by
  have step1 : cooEntrySum (lowerTriEntries v dim) i j
      = if j < dim then
          (if j ≤ i ∧ i < j + (dim - j) then v.getD (colStart dim j + (i - j)) 0 else 0)
        else 0 := by
    unfold cooEntrySum lowerTriEntries
    rw [sum_map_flatMap]
    refine sum_map_ite_const dim j _ _ ?_
    intro jp _
    by_cases hj : jp = j
    · subst hj
      rw [if_pos rfl, List.map_map]
      refine sum_map_ite_shift (dim - jp) jp i
        (fun k => v.getD (colStart dim jp + k) 0) _ ?_
      intro k _
      by_cases hk : jp + k = i <;> simp [hk]
    · rw [if_neg hj]
      apply List.sum_eq_zero
      intro x hx
      simp only [List.mem_map] at hx
      obtain ⟨e, ⟨k, hk, rfl⟩, rfl⟩ := hx
      simp [hj]
  rw [step1]
  by_cases hjd : j < dim
  · have hsum : j + (dim - j) = dim := by omega
    rw [if_pos hjd, hsum]
  · have h2 : ¬ (j ≤ i ∧ i < dim) := by omega
    rw [if_neg hjd, if_neg h2]

/-- C4: For every dim >= 1 and every vector v of length dim*(dim+1)/2 listing
a symmetric matrix M's lower-triangular entries column-major (entry
`colStart dim j + k` of v is `M (j+k) j`), `vectorized_lower_tri_to_mat v dim`
returns a dim-by-dim matrix equal to M elementwise: each lower-triangular
entry is placed at its coordinate, off-diagonal entries are mirrored and
diagonal entries are unchanged; hence decode composed with half-vectorization
is the identity on symmetric matrices. -/
theorem claim_C4 (dim : ℕ) (hdim : 1 ≤ dim) (M : ℕ → ℕ → ℚ)
    (hsym : ∀ i, i < dim → ∀ j, j < dim → M i j = M j i)
    (v : List ℚ) (hlen : v.length = dim * (dim + 1) / 2)
    (hv : ∀ j, j < dim → ∀ k, k < dim - j →
      v.getD (colStart dim j + k) 0 = M (j + k) j) :
    (vectorized_lower_tri_to_mat v dim).length = dim ∧
    (vectorized_lower_tri_to_mat v dim).map List.length = List.replicate dim dim ∧
    ∀ i, i < dim → ∀ j, j < dim →
      ((vectorized_lower_tri_to_mat v dim).getD i []).getD j 0 = M i j := by
  refine ⟨by simp [vectorized_lower_tri_to_mat], ?_, ?_⟩
  · unfold vectorized_lower_tri_to_mat
    rw [List.map_map]
    have hconst : ∀ x ∈ List.range dim,
        (List.length ∘ (fun i => (List.range dim).map (fun j =>
          cooEntrySum (lowerTriEntries v dim) i j +
            cooEntrySum (lowerTriEntries v dim) j i -
            (if i = j then cooEntrySum (lowerTriEntries v dim) i i else 0)))) x
          = (fun _ => dim) x := by
      intro x _
      simp
    rw [List.map_congr_left hconst, List.map_const', List.length_range]
  · intro i hi j hj
    have hAij : ∀ a b : ℕ, cooEntrySum (lowerTriEntries v dim) a b
        = if b ≤ a ∧ a < dim then M a b else 0 := by
      intro a b
      rw [cooEntrySum_lowerTri]
      by_cases hab : b ≤ a ∧ a < dim
      · rw [if_pos hab, if_pos hab]
        have hb : b < dim := by omega
        have hk : a - b < dim - b := by omega
        rw [hv b hb (a - b) hk]
        congr 1
        omega
      · rw [if_neg hab, if_neg hab]
    have hrow : (vectorized_lower_tri_to_mat v dim).getD i []
        = (List.range dim).map (fun j =>
            cooEntrySum (lowerTriEntries v dim) i j +
              cooEntrySum (lowerTriEntries v dim) j i -
              (if i = j then cooEntrySum (lowerTriEntries v dim) i i else 0)) := by
      unfold vectorized_lower_tri_to_mat
      rw [List.getD_eq_getElem _ _ (by simpa using hi), List.getElem_map,
        List.getElem_range]
    rw [hrow, List.getD_eq_getElem _ _ (by simpa using hj), List.getElem_map,
      List.getElem_range, hAij i j, hAij j i, hAij i i]
    rcases Nat.lt_trichotomy i j with hij | hij | hij
    · have h1 : ¬ (j ≤ i ∧ i < dim) := by omega
      have h2 : i ≤ j ∧ j < dim := by omega
      have h3 : ¬ (i = j) := by omega
      rw [if_neg h1, if_pos h2, if_neg h3, hsym j hj i hi]
      ring
    · subst hij
      have h1 : i ≤ i ∧ i < dim := by omega
      simp only [if_pos h1, if_true, eq_self_iff_true]
      ring
    · have h1 : j ≤ i ∧ i < dim := by omega
      have h2 : ¬ (i ≤ j ∧ j < dim) := by omega
      have h3 : ¬ (i = j) := by omega
      rw [if_pos h1, if_neg h2, if_neg h3]
      ring

/-- Witness for C4 at `dim = 2`, the matrix `exM4`, its half-vectorization
`exV4`, and the mirrored entry `(1, 0)`. -/
theorem claim_C4_witness :
    ((vectorized_lower_tri_to_mat exV4 2).getD 1 []).getD 0 0 = exM4 1 0 :=
  (claim_C4 2 (by decide) exM4 (by decide) exV4 (by decide) (by decide)).2.2
    1 (by decide) 0 (by decide)

/-! ### Encoder lemmas -/

/-- Fused evaluation of a map of a map. -/
theorem map_map_congr {α β γ : Type} (l : List α) (f : α → β) (g : β → γ)
    (k : α → γ) (h : ∀ a ∈ l, g (f a) = k a) : (l.map f).map g = l.map k := by
  rw [List.map_map]
  exact List.map_congr_left h

/-- Evaluation of `groupData`: what each `if len(...) > 0:` block of
`MOSEK.apply` appends, in closed form. -/
theorem groupData_eq (p : Problem) (cs : List Constraint) (o : Option (List ℕ)) :
    groupData p cs o =
      ⟨if cs.isEmpty then [] else [stackedCoeffRows cs],
       if cs.isEmpty then [] else [stackedOffsets cs],
       cs.map (fun c => (c.id, c.offset.length)),
       (cs.map (fun c => c.offset.length)).sum,
       cs.map (fun c => c.offset.length)⟩ := by
  cases cs with
  | nil => rfl
  | cons c rest =>
      unfold groupData MOSEK.block_format
      simp only [List.isEmpty_cons, Bool.false_eq_true, if_false]
      have hfst : ((c :: rest).map (fun con => format_constr p con o)).map
            (fun pr => pr.1) = (c :: rest).map (fun x => x.coeff) :=
        map_map_congr _ _ _ _ (fun a _ => rfl)
      have hsnd : ((c :: rest).map (fun con => format_constr p con o)).map
            (fun pr => pr.2) = (c :: rest).map (fun x => x.offset) :=
        map_map_congr _ _ _ _ (fun a _ => rfl)
      rw [hfst, hsnd]
      have hlen : ((c :: rest).map (fun x => x.offset)).map List.length
          = (c :: rest).map (fun x => x.offset.length) :=
        map_map_congr _ _ _ _ (fun a _ => rfl)
      rw [hlen, List.zip_map']
      rfl

/-- The coefficient stacks appended by one group, flattened. -/
theorem groupData_As_flatten (p : Problem) (cs : List Constraint)
    (o : Option (List ℕ)) :
    (groupData p cs o).As.flatten = stackedCoeffRows cs := by
  rw [groupData_eq]
  cases cs <;> simp [stackedCoeffRows]

/-- The offset stacks appended by one group, flattened. -/
theorem groupData_bs_flatten (p : Problem) (cs : List Constraint)
    (o : Option (List ℕ)) :
    (groupData p cs o).bs.flatten = stackedOffsets cs := by
  rw [groupData_eq]
  cases cs <;> simp [stackedOffsets]

/-- The `(id, length)` table recorded by one group. -/
theorem groupData_slacks (p : Problem) (cs : List Constraint)
    (o : Option (List ℕ)) :
    (groupData p cs o).slacks = cs.map (fun c => (c.id, c.offset.length)) := by
  rw [groupData_eq]

/-- The summed dimension recorded by one group. -/
theorem groupData_total (p : Problem) (cs : List Constraint)
    (o : Option (List ℕ)) :
    (groupData p cs o).total = (cs.map (fun c => c.offset.length)).sum := by
  rw [groupData_eq]

/-- The per-constraint lengths recorded by one group. -/
theorem groupData_lengths (p : Problem) (cs : List Constraint)
    (o : Option (List ℕ)) :
    (groupData p cs o).lengths = cs.map (fun c => c.offset.length) := by
  rw [groupData_eq]

/-- The first components of the `psd_coeff_offset` triples are the negated
coefficient stacks. -/
theorem psdT_fst (p : Problem) (cs : List Constraint) :
    (cs.map (fun c => psd_coeff_offset p c)).map (fun t => t.1)
      = cs.map (fun c => negatedRows c.coeff) := by
  rw [List.map_map]
  exact List.map_congr_left (fun a _ => rfl)

/-- The second components of the `psd_coeff_offset` triples are the offset
vectors. -/
theorem psdT_snd (p : Problem) (cs : List Constraint) :
    (cs.map (fun c => psd_coeff_offset p c)).map (fun t => t.2.1)
      = cs.map (fun c => c.offset) := by
  rw [List.map_map]
  exact List.map_congr_left (fun a _ => rfl)

/-- Full evaluation of `MOSEK.apply` on the success path: the `data` and
`inv_data` records in closed form. -/
theorem apply_eq_some (p : Problem) (data : MosekData) (inv : InvData)
    (happ : MOSEK.apply p = some (data, inv)) :
    data = { bool_idx := p.boolIdx, int_idx := p.intIdx, c := p.c,
             obj_offset := p.constant,
             dims := { soc := (socConstr p).flatMap (fun ci => ci.cone_sizes),
                       exp := (expConstr p).map (fun c => c.offset.length),
                       psd := (psdConstr p).map (fun c => c.dim),
                       leq := ((leqConstr p).map (fun c => c.offset.length)).sum,
                       eq := ((eqConstr p).map (fun c => c.offset.length)).sum },
             G := stackedCoeffRows (leqConstr p) ++ stackedCoeffRows (eqConstr p) ++
                  stackedCoeffRows (socConstr p) ++ stackedCoeffRows (expConstr p) ++
                  ((psdConstr p).map (fun c => negatedRows c.coeff)).flatten,
             h := stackedOffsets (leqConstr p) ++ stackedOffsets (eqConstr p) ++
                  stackedOffsets (socConstr p) ++ stackedOffsets (expConstr p) ++
                  stackedOffsets (psdConstr p) } ∧
    inv = { var_id := p.varId,
            suc_slacks := (leqConstr p).map (fun c => (c.id, c.offset.length)),
            y_slacks := (eqConstr p).map (fun c => (c.id, c.offset.length)),
            snx_slacks := (socConstr p).map (fun c => (c.id, c.offset.length)) ++
              (expConstr p).map (fun c => (c.id, c.offset.length)),
            psd_dims := (psdConstr p).map (fun c => (c.id, c.dim)),
            integer_variables := decide (p.boolIdx.length + p.intIdx.length > 0),
            n0 := p.c.length, obj_offset := p.constant } := by
  simp only [MOSEK.apply] at happ
  split at happ
  · exact Option.noConfusion happ
  · rw [Option.some.injEq, Prod.mk.injEq] at happ
    obtain ⟨h1, h2⟩ := happ
    constructor
    · rw [← h1]
      simp only [List.flatten_append, groupData_As_flatten, groupData_bs_flatten,
        groupData_total, groupData_lengths, psdT_fst, psdT_snd, stackedOffsets]
    · rw [← h2]
      simp only [groupData_slacks]

/-- C3 (amended): for every problem on which `apply` succeeds, the stacked
system places the NonNeg (inequality) rows first, then the Zero (equality)
rows, then SecondOrder, then Exponential, then PSD rows — both in the offset
vector `h` and in the coefficient matrix `G` (whose PSD rows are negated). -/
theorem claim_C3_amended (p : Problem) (data : MosekData) (inv : InvData)
    (happ : MOSEK.apply p = some (data, inv)) :
    data.h = stackedOffsets (leqConstr p) ++ stackedOffsets (eqConstr p) ++
      stackedOffsets (socConstr p) ++ stackedOffsets (expConstr p) ++
      stackedOffsets (psdConstr p) ∧
    data.G = stackedCoeffRows (leqConstr p) ++ stackedCoeffRows (eqConstr p) ++
      stackedCoeffRows (socConstr p) ++ stackedCoeffRows (expConstr p) ++
      ((psdConstr p).map (fun c => negatedRows c.coeff)).flatten := by
  obtain ⟨hd, _⟩ := apply_eq_some p data inv happ
  subst hd
  exact ⟨rfl, rfl⟩

/-- Counterexample to C3 as stated: on a problem whose Zero constraint has
offset row `[5]` and whose NonPos constraint has offset row `[7]`, `apply`
stacks `[7, 5]` — the inequality row first — not `[5, 7]` as the claimed
Zero-first order would give. -/
theorem claim_C3_counterexample :
    (MOSEK.apply cexP3).map (fun di => di.1.h) = some [7, 5] ∧
    (some [(7 : ℚ), 5] : Option (List ℚ)) ≠ some [(5 : ℚ), 7] := by decide

/-- Witness for the amended C3 on `exProblem`. -/
theorem claim_C3_witness :
    exData5.h = stackedOffsets (leqConstr exProblem) ++
      stackedOffsets (eqConstr exProblem) ++ stackedOffsets (socConstr exProblem) ++
      stackedOffsets (expConstr exProblem) ++ stackedOffsets (psdConstr exProblem) ∧
    exData5.G = stackedCoeffRows (leqConstr exProblem) ++
      stackedCoeffRows (eqConstr exProblem) ++ stackedCoeffRows (socConstr exProblem) ++
      stackedCoeffRows (expConstr exProblem) ++
      ((psdConstr exProblem).map (fun c => negatedRows c.coeff)).flatten :=
  claim_C3_amended exProblem exData5 exInv5 (by decide)

/-- C5: the per-destination tables recorded by `apply` exactly partition
the stacked system's rows: the inequality table's lengths sum to `LEQ_DIM`,
the equality table's to `EQ_DIM`, the conic table's to the total SOC plus
EXP dimension, and these totals plus `dim * dim` for each PSD block sum to
`len(h)`; each `(id, length)` pair is listed in the exact row order used when
stacking.  The hypotheses are the collaborator contracts: a SOC constraint's
flattened offset has `Σ cone_sizes` rows, a PSD constraint's has `dim²`. -/
theorem claim_C5 (p : Problem) (data : MosekData) (inv : InvData)
    (happ : MOSEK.apply p = some (data, inv))
    (hsoc : ∀ c ∈ p.constraints, c.kind = ConKind.soc →
      c.offset.length = c.cone_sizes.sum)
    (hpsd : ∀ c ∈ p.constraints, c.kind = ConKind.psd →
      c.offset.length = c.dim * c.dim) :
    (inv.suc_slacks.map (fun pr => pr.2)).sum = data.dims.leq ∧
    (inv.y_slacks.map (fun pr => pr.2)).sum = data.dims.eq ∧
    (inv.snx_slacks.map (fun pr => pr.2)).sum
      = data.dims.soc.sum + data.dims.exp.sum ∧
    data.dims.leq + data.dims.eq + (data.dims.soc.sum + data.dims.exp.sum) +
      (inv.psd_dims.map (fun pr => pr.2 * pr.2)).sum = data.h.length ∧
    inv.suc_slacks = (leqConstr p).map (fun c => (c.id, c.offset.length)) ∧
    inv.y_slacks = (eqConstr p).map (fun c => (c.id, c.offset.length)) ∧
    inv.snx_slacks = (socConstr p).map (fun c => (c.id, c.offset.length)) ++
      (expConstr p).map (fun c => (c.id, c.offset.length)) ∧
    inv.psd_dims = (psdConstr p).map (fun c => (c.id, c.dim)) := by
  have hsocF : ∀ c ∈ socConstr p, c.offset.length = c.cone_sizes.sum := by
    intro c hc
    rw [socConstr, List.mem_filter] at hc
    exact hsoc c hc.1 (by simpa using hc.2)
  have hpsdF : ∀ c ∈ psdConstr p, c.offset.length = c.dim * c.dim := by
    intro c hc
    rw [psdConstr, List.mem_filter] at hc
    exact hpsd c hc.1 (by simpa using hc.2)
  have esnd : ∀ (cs : List Constraint),
      (cs.map (fun c => (c.id, c.offset.length))).map (fun pr => pr.2)
        = cs.map (fun c => c.offset.length) :=
    fun cs => map_map_congr _ _ _ _ (fun a _ => rfl)
  have hsoLen : ∀ (cs : List Constraint),
      (stackedOffsets cs).length = (cs.map (fun c => c.offset.length)).sum := by
    intro cs
    rw [stackedOffsets, List.length_flatten]
    exact congrArg List.sum (map_map_congr _ _ _ _ (fun a _ => rfl))
  obtain ⟨hd, hi⟩ := apply_eq_some p data inv happ
  subst hd
  subst hi
  refine ⟨?_, ?_, ?_, ?_, rfl, rfl, rfl, rfl⟩
  · exact congrArg List.sum (esnd (leqConstr p))
  · exact congrArg List.sum (esnd (eqConstr p))
  · rw [List.map_append, List.sum_append, esnd, esnd, sum_flatMap_nat]
    have e1 : ((socConstr p).map (fun c => c.offset.length)).sum
        = ((socConstr p).map (fun c => c.cone_sizes.sum)).sum :=
      congrArg List.sum (List.map_congr_left (fun a ha => hsocF a ha))
    rw [e1]
  · simp only [List.length_append]
    rw [hsoLen, hsoLen, hsoLen, hsoLen, hsoLen]
    have epsd : (((psdConstr p).map (fun c => (c.id, c.dim))).map
          (fun pr => pr.2 * pr.2)).sum
        = ((psdConstr p).map (fun c => c.dim * c.dim)).sum :=
      congrArg List.sum (map_map_congr _ _ _ _ (fun a _ => rfl))
    rw [epsd, sum_flatMap_nat]
    have e1 : ((socConstr p).map (fun c => c.cone_sizes.sum)).sum
        = ((socConstr p).map (fun c => c.offset.length)).sum :=
      congrArg List.sum (List.map_congr_left (fun a ha => (hsocF a ha).symm))
    have e2 : ((psdConstr p).map (fun c => c.dim * c.dim)).sum
        = ((psdConstr p).map (fun c => c.offset.length)).sum :=
      congrArg List.sum (List.map_congr_left (fun a ha => (hpsdF a ha).symm))
    rw [e1, e2]
    omega

/-- Witness for C5 on `exProblem` (all five cone kinds present). -/
theorem claim_C5_witness :
    (exInv5.suc_slacks.map (fun pr => pr.2)).sum = exData5.dims.leq ∧
    (exInv5.y_slacks.map (fun pr => pr.2)).sum = exData5.dims.eq ∧
    (exInv5.snx_slacks.map (fun pr => pr.2)).sum
      = exData5.dims.soc.sum + exData5.dims.exp.sum ∧
    exData5.dims.leq + exData5.dims.eq +
      (exData5.dims.soc.sum + exData5.dims.exp.sum) +
      (exInv5.psd_dims.map (fun pr => pr.2 * pr.2)).sum = exData5.h.length ∧
    exInv5.suc_slacks = (leqConstr exProblem).map (fun c => (c.id, c.offset.length)) ∧
    exInv5.y_slacks = (eqConstr exProblem).map (fun c => (c.id, c.offset.length)) ∧
    exInv5.snx_slacks = (socConstr exProblem).map (fun c => (c.id, c.offset.length)) ++
      (expConstr exProblem).map (fun c => (c.id, c.offset.length)) ∧
    exInv5.psd_dims = (psdConstr exProblem).map (fun c => (c.id, c.dim)) :=
  claim_C5 exProblem exData5 exInv5 (by decide) (by decide) (by decide)

/-- C9 (amended): `block_format` on an empty constraint list returns the
sentinel `(None, None)` — a Python 2-tuple, not a value of the documented
four-component shape — while on a non-empty list it returns the four
components (stacked coefficient matrix, stacked offset vector,
per-constraint lengths, constraint ids) with row slices in constraint input
order. -/
theorem claim_C9_amended (p : Problem) (constraints : List Constraint)
    (o : Option (List ℕ)) :
    (constraints = [] →
      MOSEK.block_format p constraints o = BlockFormatResult.noBlock ∧
      pyTupleLen (MOSEK.block_format p constraints o) = 2) ∧
    (constraints ≠ [] →
      MOSEK.block_format p constraints o =
        BlockFormatResult.blocks (stackedCoeffRows constraints)
          (stackedOffsets constraints)
          (constraints.map (fun c => c.offset.length))
          (constraints.map (fun c => c.id))) := by
  constructor
  · rintro rfl
    exact ⟨rfl, rfl⟩
  · intro hne
    cases constraints with
    | nil => exact absurd rfl hne
    | cons c rest =>
        unfold MOSEK.block_format
        simp only [List.isEmpty_cons, Bool.false_eq_true, if_false]
        have hfst : ((c :: rest).map (fun con => format_constr p con o)).map
              (fun pr => pr.1) = (c :: rest).map (fun x => x.coeff) :=
          map_map_congr _ _ _ _ (fun a _ => rfl)
        have hsnd : ((c :: rest).map (fun con => format_constr p con o)).map
              (fun pr => pr.2) = (c :: rest).map (fun x => x.offset) :=
          map_map_congr _ _ _ _ (fun a _ => rfl)
        rw [hfst, hsnd]
        have hlen : ((c :: rest).map (fun x => x.offset)).map List.length
            = (c :: rest).map (fun x => x.offset.length) :=
          map_map_congr _ _ _ _ (fun a _ => rfl)
        rw [hlen]
        rfl

/-- Counterexample to C9 as stated: on the empty list the returned sentinel
is the 2-tuple `(None, None)`, not a result of the documented 4-tuple
shape. -/
theorem claim_C9_counterexample :
    pyTupleLen (MOSEK.block_format exProblem [] none) = 2 ∧ (2 : ℕ) ≠ 4 := by
  decide

/-- Witness for the amended C9 on a one-constraint list. -/
theorem claim_C9_witness :
    MOSEK.block_format exProblem [exConNonpos] none =
      BlockFormatResult.blocks (stackedCoeffRows [exConNonpos])
        (stackedOffsets [exConNonpos])
        ([exConNonpos].map (fun c => c.offset.length))
        ([exConNonpos].map (fun c => c.id)) :=
  (claim_C9_amended exProblem [exConNonpos] none).2 (by decide)

/-- C1: for every encoded problem whose objective coefficient vector is
empty (`n0 == 0`) and valid solver options, `solve_via_data` returns —
without invoking the native solver (the task stays empty and `optimize` is
never called) — a result with status `Optimal`, an empty primal vector, and
objective value equal to the constant offset recorded by `apply`. -/
theorem claim_C1 (p : Problem) (data : MosekData) (inv : InvData)
    (happ : MOSEK.apply p = some (data, inv)) (hn0 : data.c.length = 0)
    (warm_start verbose : Bool) (solver_opts : SolverOpts)
    (hopts : checkOpts solver_opts = Except.ok ()) :
    MOSEK.solve_via_data data warm_start verbose solver_opts =
      (TaskModel.init, Except.ok (SolveResult.trivial
        { status := CvxpyStatus.OPTIMAL, primal := [],
          value := data.obj_offset, eq_dual := [], ineq_dual := [] })) ∧
    data.obj_offset = p.constant ∧
    TaskModel.init.numVars = 0 ∧ TaskModel.init.optimizeCalled = false := by
  refine ⟨?_, ?_, rfl, rfl⟩
  · simp [MOSEK.solve_via_data, hopts, hn0]
  · obtain ⟨hd, _⟩ := apply_eq_some p data inv happ
    rw [hd]

/-- Witness for C1 on the zero-variable problem `exP1`. -/
theorem claim_C1_witness :
    MOSEK.solve_via_data exD1 false false defaultOpts =
      (TaskModel.init, Except.ok (SolveResult.trivial
        { status := CvxpyStatus.OPTIMAL, primal := [],
          value := exD1.obj_offset, eq_dual := [], ineq_dual := [] })) ∧
    exD1.obj_offset = exP1.constant ∧
    TaskModel.init.numVars = 0 ∧ TaskModel.init.optimizeCalled = false :=
  claim_C1 exP1 exD1 exI1 (by decide) (by decide) false false defaultOpts
    (by decide)

/-! ### Solver-bridge lemmas -/

/-- Two adjacent ranges concatenate. -/
theorem range'_concat (s a b : ℕ) :
    List.range' s a ++ List.range' (s + a) b = List.range' s (a + b) := by
  have h := List.range'_append s a b 1
  simp only [one_mul] at h
  rw [Nat.add_comm b a] at h
  exact h

/-- The SOC cone loop consumes exactly the indices `s, …, s + Σsizes - 1`,
in order. -/
theorem socCones_flat (l : List ℕ) (s : ℕ) :
    ((socCones s l).map (fun pc => pc.2)).flatten = List.range' s l.sum := by
  induction l generalizing s with
  | nil => simp [socCones]
  | cons a rest ih =>
      simp only [socCones, List.map_cons, List.flatten_cons, ih]
      rw [range'_concat]
      simp [List.sum_cons]

/-- The EXP cone loop consumes exactly the indices `s, …, s + 3k - 1`,
in order. -/
theorem expCones_flat (k : ℕ) : ∀ s : ℕ,
    ((expCones s k).map (fun pc => pc.2)).flatten = List.range' s (3 * k) := by
  induction k with
  | zero => intro s; simp [expCones]
  | succ k ih =>
      intro s
      simp only [expCones, List.map_cons, List.flatten_cons, ih]
      rw [range'_concat]
      congr 1
      omega

/-- Each SOC size yields one quadratic cone of that size. -/
theorem socCones_shape (l : List ℕ) (s : ℕ) :
    (socCones s l).map (fun pc => (pc.1, pc.2.length))
      = l.map (fun sz => (ConeType.quad, sz)) := by
  induction l generalizing s with
  | nil => rfl
  | cons a rest ih => simp [socCones, List.length_range', ih]

/-- Each EXP triple yields one primal exponential cone of size 3. -/
theorem expCones_shape (k : ℕ) : ∀ s : ℕ,
    (expCones s k).map (fun pc => (pc.1, pc.2.length))
      = List.replicate k (ConeType.pexp, 3) := by
  induction k with
  | zero => intro s; rfl
  | succ k ih =>
      intro s
      simp [expCones, List.length_range', ih, List.replicate_succ]

/-- When every PSD dimension is positive, the `psd_total_dims > 0` guard
keeps exactly the dimension list. -/
theorem barvar_ite (l : List ℕ) (hp : ∀ d ∈ l, 0 < d) :
    (if (l.map (fun el => el * el)).sum > 0 then l else []) = l := by
  cases l with
  | nil => simp
  | cons d rest =>
      have hd : 0 < d := hp d (List.mem_cons_self d rest)
      have h2 : 0 < ((d :: rest).map (fun el => el * el)).sum := by
        simp only [List.map_cons, List.sum_cons]
        have := Nat.mul_pos hd hd
        omega
      rw [if_pos h2]

/-- Evaluation of `solve_via_data` on the task-building path. -/
theorem solve_via_data_task (data : MosekData) (warm_start verbose : Bool)
    (solver_opts : SolverOpts) (hopts : checkOpts solver_opts = Except.ok ())
    (hc : data.c.length ≠ 0) :
    (MOSEK.solve_via_data data warm_start verbose solver_opts).1 =
      { numVars := data.c.length + data.dims.soc.sum + data.dims.exp.sum,
        barvarDims :=
          if (data.dims.psd.map (fun el => el * el)).sum > 0 then data.dims.psd
          else [],
        cones := socCones data.c.length data.dims.soc ++
          expCones (data.c.length + data.dims.soc.sum) (data.dims.exp.sum / 3),
        intVars :=
          if data.bool_idx.length + data.int_idx.length > 0 then
            data.bool_idx ++ data.int_idx
          else [],
        numCons := data.h.length,
        aij := sparseFind data.G ++
          (if data.dims.soc.sum + data.dims.exp.sum > 0 then
            slackIdentity (data.dims.leq + data.dims.eq) data.c.length
              (data.dims.soc.sum + data.dims.exp.sum)
           else []),
        baraij := psdEntries
          (data.dims.leq + data.dims.eq + (data.dims.soc.sum + data.dims.exp.sum))
          0 data.dims.psd,
        boundKeys := List.replicate data.dims.leq BoundKey.up ++
          List.replicate (data.h.length - data.dims.leq) BoundKey.fx,
        boundVals := data.h,
        objC := data.c,
        optimizeCalled := true } := by
  simp [MOSEK.solve_via_data, hopts, hc]

/-- C6: for every encoded problem (with valid options, EXP rows in complete
triples, and positive PSD dimensions), `solve_via_data` declares exactly
`n = n0 + Σ SOC sizes + Σ EXP block lengths` scalar variables; the SOC/EXP
slack variables occupy the contiguous index range `n0 … n-1`, consumed in
order by a running cursor — one quadratic cone per SOC size, then one
exponential cone per consecutive triple — and PSD blocks contribute no
scalar slack variables: they are declared as one matrix variable each,
sized by its dimension. -/
theorem claim_C6 (data : MosekData) (warm_start verbose : Bool)
    (solver_opts : SolverOpts) (hopts : checkOpts solver_opts = Except.ok ())
    (hc : data.c.length ≠ 0) (hdvd : 3 ∣ data.dims.exp.sum)
    (hpsd : ∀ d ∈ data.dims.psd, 0 < d) :
    (MOSEK.solve_via_data data warm_start verbose solver_opts).1.numVars
      = data.c.length + data.dims.soc.sum + data.dims.exp.sum ∧
    ((MOSEK.solve_via_data data warm_start verbose solver_opts).1.cones.map
        (fun pc => pc.2)).flatten
      = List.range' data.c.length (data.dims.soc.sum + data.dims.exp.sum) ∧
    (MOSEK.solve_via_data data warm_start verbose solver_opts).1.cones.map
        (fun pc => (pc.1, pc.2.length))
      = data.dims.soc.map (fun sz => (ConeType.quad, sz)) ++
        List.replicate (data.dims.exp.sum / 3) (ConeType.pexp, 3) ∧
    (MOSEK.solve_via_data data warm_start verbose solver_opts).1.barvarDims
      = data.dims.psd := by
  rw [solve_via_data_task data warm_start verbose solver_opts hopts hc]
  refine ⟨rfl, ?_, ?_, ?_⟩
  · dsimp only
    rw [List.map_append, List.flatten_append, socCones_flat, expCones_flat,
      Nat.mul_div_cancel' hdvd, range'_concat]
  · dsimp only
    rw [List.map_append, socCones_shape, expCones_shape]
  · exact barvar_ite data.dims.psd hpsd

/-- Witness for C6 on `exData6`. -/
theorem claim_C6_witness :
    (MOSEK.solve_via_data exData6 false false defaultOpts).1.numVars
      = exData6.c.length + exData6.dims.soc.sum + exData6.dims.exp.sum ∧
    ((MOSEK.solve_via_data exData6 false false defaultOpts).1.cones.map
        (fun pc => pc.2)).flatten
      = List.range' exData6.c.length (exData6.dims.soc.sum + exData6.dims.exp.sum) ∧
    (MOSEK.solve_via_data exData6 false false defaultOpts).1.cones.map
        (fun pc => (pc.1, pc.2.length))
      = exData6.dims.soc.map (fun sz => (ConeType.quad, sz)) ++
        List.replicate (exData6.dims.exp.sum / 3) (ConeType.pexp, 3) ∧
    (MOSEK.solve_via_data exData6 false false defaultOpts).1.barvarDims
      = exData6.dims.psd :=
  claim_C6 exData6 false false defaultOpts (by decide) (by decide) (by decide)
    (by decide)

/-- Every `putbaraij` entry generated by the PSD loop carries value 1 iff its
coordinate is diagonal (else 1/2), and sits in the lower triangle. -/
theorem psdEntries_val (dimsL : List ℕ) : ∀ (i0 j0 : ℕ),
    ∀ e ∈ psdEntries i0 j0 dimsL,
      e.val = (if e.matRow = e.matCol then (1 : ℚ) else 1/2) ∧
      e.matCol ≤ e.matRow := by
  induction dimsL with
  | nil =>
      intro i0 j0 e he
      simp [psdEntries] at he
  | cons dim rest ih =>
      intro i0 j0 e he
      simp only [psdEntries, List.mem_append] at he
      rcases he with he | he
      · simp only [List.mem_flatMap, List.mem_map, List.mem_range] at he
        obtain ⟨r, hr, c, hc, rfl⟩ := he
        constructor
        · dsimp only
          by_cases h : r = c
          · subst h
            simp
          · have hne : ¬ (max r c = min r c) := by omega
            rw [if_neg h, if_neg hne]
        · dsimp only
          omega
      · exact ih _ _ e he

/-- For every block index `jb` and matrix coordinate `(r, c)` of that block,
the PSD loop generates the corresponding entry: at linear-expression row
`i0 + Σ(previous dims²) + r·dim + c`, on matrix variable `j0 + jb`, with the
single basis value at `(max r c, min r c)`. -/
theorem psdEntries_mem (dimsL : List ℕ) :
    ∀ (i0 j0 jb r c : ℕ), jb < dimsL.length → r < dimsL.getD jb 0 →
      c < dimsL.getD jb 0 →
    ({ coni := i0 + (((dimsL.take jb).map (fun d => d * d)).sum +
         (r * dimsL.getD jb 0 + c)),
       barj := j0 + jb, matRow := max r c, matCol := min r c,
       val := if r = c then (1 : ℚ) else 1/2 } : BarEntry) ∈
      psdEntries i0 j0 dimsL := by
  induction dimsL with
  | nil =>
      intro i0 j0 jb r c hj
      simp at hj
  | cons dim rest ih =>
      intro i0 j0 jb r c hj hr hc
      cases jb with
      | zero =>
          simp only [psdEntries]
          apply List.mem_append.mpr
          left
          simp only [List.mem_flatMap, List.mem_map, List.mem_range]
          refine ⟨r, by simpa using hr, c, by simpa using hc, ?_⟩
          simp only [List.take_zero, List.map_nil, List.sum_nil,
            List.getD_cons_zero, Nat.zero_add, Nat.add_zero]
      | succ jb =>
          simp only [psdEntries]
          apply List.mem_append.mpr
          right
          have h := ih (i0 + dim * dim) (j0 + 1) jb r c (by simpa using hj)
            (by simpa using hr) (by simpa using hc)
          convert h using 2
          all_goals (first
            | omega
            | (simp only [List.take_succ_cons, List.map_cons, List.sum_cons,
                List.getD_cons_succ]; omega))

/-- C10: for every PSD block and every row/column pair `(r, c)` of its matrix
variable, the basis-matrix coefficient contributed to the linear system is
exactly 1.0 when `r = c` and exactly 0.5 when `r ≠ c`, placed at the
lower-triangular coordinate `(max r c, min r c)` — both soundness (every
generated entry has this form) and completeness (every pair generates its
entry, at the block's row offset). -/
theorem claim_C10 (data : MosekData) (warm_start verbose : Bool)
    (solver_opts : SolverOpts) (hopts : checkOpts solver_opts = Except.ok ())
    (hc : data.c.length ≠ 0) :
    (∀ e ∈ (MOSEK.solve_via_data data warm_start verbose solver_opts).1.baraij,
      e.val = (if e.matRow = e.matCol then (1 : ℚ) else 1/2) ∧
      e.matCol ≤ e.matRow) ∧
    (∀ jb r c : ℕ, jb < data.dims.psd.length → r < data.dims.psd.getD jb 0 →
      c < data.dims.psd.getD jb 0 →
      ({ coni := data.dims.leq + data.dims.eq +
           (data.dims.soc.sum + data.dims.exp.sum) +
           (((data.dims.psd.take jb).map (fun d => d * d)).sum +
             (r * data.dims.psd.getD jb 0 + c)),
         barj := 0 + jb, matRow := max r c, matCol := min r c,
         val := if r = c then (1 : ℚ) else 1/2 } : BarEntry) ∈
        (MOSEK.solve_via_data data warm_start verbose solver_opts).1.baraij) := by
  rw [solve_via_data_task data warm_start verbose solver_opts hopts hc]
  dsimp only
  constructor
  · exact psdEntries_val data.dims.psd _ _
  · intro jb r c hj hr hc2
    exact psdEntries_mem data.dims.psd _ _ jb r c hj hr hc2

/-- Witness for C10 on `exData6`, block 0, pair `(1, 0)`. -/
theorem claim_C10_witness :
    ({ coni := exData6.dims.leq + exData6.dims.eq +
         (exData6.dims.soc.sum + exData6.dims.exp.sum) +
         (((exData6.dims.psd.take 0).map (fun d => d * d)).sum +
           (1 * exData6.dims.psd.getD 0 0 + 0)),
       barj := 0 + 0, matRow := max 1 0, matCol := min 1 0,
       val := if 1 = 0 then (1 : ℚ) else 1/2 } : BarEntry) ∈
      (MOSEK.solve_via_data exData6 false false defaultOpts).1.baraij :=
  (claim_C10 exData6 false false defaultOpts (by decide) (by decide)).2
    0 1 0 (by decide) (by decide) (by decide)

/-! ### Parameter-validation lemmas -/

/-- An invalid parameter key makes `handleParam` raise. -/
theorem handleParam_err (k : MosekParamKey) (hbad : isValidParamKey k = false) :
    ∃ e, handleParam k = Except.error e := by
  cases k with
  | str s =>
      simp only [isValidParamKey, Bool.or_eq_false_iff] at hbad
      obtain ⟨⟨h1, h2⟩, h3⟩ := hbad
      refine ⟨invalidParamMsg ++ pyStrip s, ?_⟩
      simp [handleParam, handleStrParam, h1, h2, h3]
  | dparKey => simp [isValidParamKey] at hbad
  | iparKey => simp [isValidParamKey] at hbad
  | sparKey => simp [isValidParamKey] at hbad
  | otherKey => exact ⟨invalidParamMsg, rfl⟩

/-- A parameter list containing an invalid key makes the
`_handle_mosek_params` loop raise. -/
theorem handleParams_err (k : MosekParamKey) (hbad : isValidParamKey k = false) :
    ∀ params : List MosekParamKey, k ∈ params →
      ∃ e, handleParams params = Except.error e := by
  intro params
  induction params with
  | nil =>
      intro hk
      simp at hk
  | cons p rest ih =>
      intro hk
      rcases List.mem_cons.mp hk with rfl | hmem
      · obtain ⟨e, he⟩ := handleParam_err k hbad
        exact ⟨e, by simp [handleParams, he]⟩
      · rcases hp : handleParam p with e | a
        · exact ⟨e, by simp [handleParams, hp]⟩
        · obtain ⟨e, he⟩ := ih hmem
          exact ⟨e, by simp [handleParams, hp, he]⟩

/-- C8 (amended): every user-supplied `mosek_params` key is validated before
any solver variables are declared; a key that is neither a string that —
after stripping surrounding whitespace — begins with one of the three fixed
prefixes `MSK_DPAR_`, `MSK_IPAR_`, `MSK_SPAR_`, nor a native enum-typed key
of a matching class, raises a fatal error, and no model variables (nor
cones, matrix variables, or linear constraints) are ever created on that
path. -/
theorem claim_C8_amended (data : MosekData) (warm_start verbose : Bool)
    (solver_opts : SolverOpts) (params : List MosekParamKey) (k : MosekParamKey)
    (hps : solver_opts.mosek_params = some (some params))
    (hk : k ∈ params) (hbad : isValidParamKey k = false) :
    isErr (MOSEK.solve_via_data data warm_start verbose solver_opts).2 = true ∧
    (MOSEK.solve_via_data data warm_start verbose solver_opts).1
      = TaskModel.init ∧
    TaskModel.init.numVars = 0 ∧ TaskModel.init.cones = [] ∧
    TaskModel.init.barvarDims = [] ∧ TaskModel.init.numCons = 0 := by
  obtain ⟨e, he⟩ := handleParams_err k hbad params hk
  have hck : checkOpts solver_opts = Except.error e := by
    simp [checkOpts, hps, MOSEK.handle_mosek_params, he]
  refine ⟨?_, ?_, rfl, rfl, rfl, rfl⟩
  · simp [MOSEK.solve_via_data, hck, isErr]
  · simp [MOSEK.solve_via_data, hck]

/-- Counterexample to C8 as stated: the key `" MSK_DPAR_BASIS_TOL_X"` (a
real double parameter, with a leading space) does not begin with any of the
three fixed prefixes and is not an enum key, yet `solve_via_data` accepts it — the code strips whitespace before the
prefix check — and completes without error instead of raising. -/
theorem claim_C8_counterexample :
    pyStartswith cexSpacedKey dparHead = false ∧
    pyStartswith cexSpacedKey iparHead = false ∧
    pyStartswith cexSpacedKey sparHead = false ∧
    (MOSEK.solve_via_data exD1 false false cexOpts8).2 =
      Except.ok (SolveResult.trivial
        { status := CvxpyStatus.OPTIMAL, primal := [], value := 7,
          eq_dual := [], ineq_dual := [] }) := by decide

/-- Witness for the amended C8 with the invalid key `"bogus"`. -/
theorem claim_C8_witness :
    isErr (MOSEK.solve_via_data exD1 false false badOpts8).2 = true ∧
    (MOSEK.solve_via_data exD1 false false badOpts8).1 = TaskModel.init ∧
    TaskModel.init.numVars = 0 ∧ TaskModel.init.cones = [] ∧
    TaskModel.init.barvarDims = [] ∧ TaskModel.init.numCons = 0 :=
  claim_C8_amended exD1 false false badOpts8 [MosekParamKey.str bogusKey]
    (MosekParamKey.str bogusKey) rfl (by decide) (by decide)

/-! ### Decoder claims -/

/-- C2 (amended): the native-to-canonical status mapping in `invert` is
deterministic and maps each of the nine listed native statuses to exactly
one canonical status per the table; a native status value not listed in the
table (here: the feasible-but-not-optimal members of `mosek.solsta`) is
absent from the dict, so the Python indexing raises a KeyError rather than
resolving to `SolverError`. -/
theorem claim_C2_amended :
    statusOf Solsta.optimal = some CvxpyStatus.OPTIMAL ∧
    statusOf Solsta.integer_optimal = some CvxpyStatus.OPTIMAL ∧
    statusOf Solsta.prim_infeas_cer = some CvxpyStatus.INFEASIBLE ∧
    statusOf Solsta.dual_infeas_cer = some CvxpyStatus.UNBOUNDED ∧
    statusOf Solsta.near_optimal = some CvxpyStatus.OPTIMAL_INACCURATE ∧
    statusOf Solsta.near_integer_optimal = some CvxpyStatus.OPTIMAL_INACCURATE ∧
    statusOf Solsta.near_prim_infeas_cer
      = some CvxpyStatus.INFEASIBLE_INACCURATE ∧
    statusOf Solsta.near_dual_infeas_cer
      = some CvxpyStatus.UNBOUNDED_INACCURATE ∧
    statusOf Solsta.unknown = some CvxpyStatus.SOLVER_ERROR ∧
    statusOf Solsta.prim_feas = none ∧
    statusOf Solsta.dual_feas = none ∧
    statusOf Solsta.prim_and_dual_feas = none := by decide

/-- Counterexample to C2 as stated: the native status `prim_and_dual_feas`
is not listed in the table and does not resolve to `SolverError` — the
lookup finds nothing and `invert` raises (returns no Solution). -/
theorem claim_C2_counterexample :
    statusOf Solsta.prim_and_dual_feas ≠ some CvxpyStatus.SOLVER_ERROR ∧
    MOSEK.invert cexTask2 exInv7 = none := by decide

/-- C7: for every solver result whose canonical status indicates no solution
is present, `invert` returns objective `+infinity` when the status is
`Infeasible`, `-infinity` when it is `Unbounded`, and otherwise no objective
value, with no primal and no dual values produced in all of these cases. -/
theorem claim_C7 (task : MosekTask) (inverse_data : InvData)
    (status : CvxpyStatus)
    (hst : statusOf (task.getsolsta
      (if inverse_data.integer_variables then SolType.itg else SolType.itr))
      = some status)
    (hnp : SOLUTION_PRESENT.contains status = false) :
    MOSEK.invert task inverse_data = some
      { status := status,
        opt_val :=
          if status = CvxpyStatus.INFEASIBLE then some ObjValue.posInf
          else if status = CvxpyStatus.UNBOUNDED then some ObjValue.negInf
          else none,
        primal_vars := none, dual_vars := none } := by
  simp only [MOSEK.invert]
  rw [hst]
  have hmem : status ∉ SOLUTION_PRESENT := by simpa using hnp
  simp [hnp, hmem]

/-- Witness for C7 on a primal-infeasibility certificate. -/
theorem claim_C7_witness :
    MOSEK.invert exTask7 exInv7 = some
      { status := CvxpyStatus.INFEASIBLE,
        opt_val :=
          if CvxpyStatus.INFEASIBLE = CvxpyStatus.INFEASIBLE then
            some ObjValue.posInf
          else if CvxpyStatus.INFEASIBLE = CvxpyStatus.UNBOUNDED then
            some ObjValue.negInf
          else none,
        primal_vars := none, dual_vars := none } :=
  claim_C7 exTask7 exInv7 CvxpyStatus.INFEASIBLE (by decide) (by decide)
